import Mathlib

/-!
Verification of the rent-ledger core of the donthirentmanager repository.

The embedding models the Zustand store (`src/store/useStore.ts`, the
user-partitioned variant whose operations all guard on `currentUserId`),
the payment-recording dialog (`src/components/PaymentDialog.tsx`), the
status-derivation helper (`src/hooks/useDashboardStats.ts`) and the
month-lifecycle handlers (`src/pages/Dashboard.tsx`).

Modelling conventions:
* Calendar months (`YYYY-MM` strings compared lexicographically in the
  source) are modelled as year/month pairs with the corresponding
  lexicographic order; the two orders agree on well-formed month strings.
* Wall-clock timestamps are modelled at day granularity as
  year/month/day triples; `date-fns` `isAfter(now, 10th 23:59:59)` is
  day-exact, so the triple comparison is faithful.
* Monetary values (JS numbers) are modelled as `Int`; every amount in
  the claims is an exact integer.
* A Firebase `update` on an absent key is modelled as a no-op; the
  theorems that depend on a patched record carry the hypothesis that the
  record exists, which holds on every state the UI can produce.
* Presentation-only fields (names, phone numbers, attachments, …) that
  no modelled operation reads are omitted from the records.
* The `await`-sequenced Firebase writes of one operation are modelled as
  one atomic state change (single-writer assumption, spec §5).
-/

/-- Stored payment status enum (`'pending' | 'partial' | 'paid' | 'overdue'`).
The `partial` literal of the source is spelled `partiallyPaid` here. -/
inductive Status where
  | pending
  | partiallyPaid
  | paid
  | overdue
deriving DecidableEq, Repr

/-- A calendar month, modelling a `YYYY-MM` string. -/
structure Month where
  year : Nat
  mon : Nat
deriving DecidableEq, Repr

/-- Lexicographic order on months, matching JS string `<` on
well-formed `YYYY-MM` strings. -/
def Month.lt (a b : Month) : Bool :=
  Nat.blt a.year b.year || (a.year == b.year && Nat.blt a.mon b.mon)

/-- A wall-clock date at day granularity. -/
structure SimpleDate where
  year : Nat
  mon : Nat
  day : Nat
deriving DecidableEq, Repr

/-- `isAfter(now, new Date(y, m, 10, 23:59:59))` from
`useDashboardStats.ts`: the instant `now` lies strictly after the end of
the 10th day of month `m`. -/
def tenthOfMonthPassed (m : Month) (now : SimpleDate) : Bool :=
  Nat.blt m.year now.year ||
    (m.year == now.year &&
      (Nat.blt m.mon now.mon || (m.mon == now.mon && Nat.blt 10 now.day)))

/-- `Property` record (`src/types`): display fields that no modelled
operation reads are omitted. -/
structure Property where
  id : String
  name : String
  address : String
  totalUnits : Nat
deriving DecidableEq, Repr

/-- `Unit` record of the source; renamed `RentalUnit` because `Unit` is
taken in Lean. -/
structure RentalUnit where
  id : String
  propertyId : String
  unitNumber : String
  monthlyRent : Int
  isOccupied : Bool
  tenantId : Option String
deriving DecidableEq, Repr

/-- `Tenant` record; contact and attachment fields are omitted. -/
structure Tenant where
  id : String
  unitId : String
  propertyId : String
  advancePaid : Int
  monthlyWaterBill : Int
deriving DecidableEq, Repr

/-- `RentPayment` record ("due"). -/
structure RentPayment where
  id : String
  tenantId : String
  unitId : String
  propertyId : String
  month : Month
  rentAmount : Int
  waterBill : Int
  totalAmount : Int
  paidAmount : Int
  status : Status
  paidDate : Option SimpleDate
deriving DecidableEq, Repr

/-- `Expense` record. -/
structure Expense where
  id : String
  propertyId : Option String
  month : Month
  amount : Int
deriving DecidableEq, Repr

/-- `MonthlyStatus` record.  A record written by `closeMonth` on a month
that never had a status node has no `isStarted` field in Firebase, which
reads back falsy; it is modelled as `isStarted := false`. -/
structure MonthlyStatus where
  month : Month
  isStarted : Bool
  isClosed : Bool
  startedAt : Option SimpleDate
  closedAt : Option SimpleDate
deriving DecidableEq, Repr

/-- The mirrored store state (`AppState` of `useStore.ts`): one list per
collection plus the authenticated user id (`currentUserId`). -/
structure AppState where
  properties : List Property
  units : List RentalUnit
  tenants : List Tenant
  payments : List RentPayment
  expenses : List Expense
  monthlyStatuses : List MonthlyStatus
  currentUserId : Option String
deriving DecidableEq, Repr

/-- `markPaymentPaid(id, amount)` (`useStore.ts:798-815`): guard on
`currentUserId`, find the single due by id, add `amount` to its
`paidAmount`, stamp `paidDate`, and set the stored status to `paid` or
`partial` by comparing the new total.  A missing id is a silent no-op. -/
def markPaymentPaid (s : AppState) (id : String) (amount : Int)
    (now : SimpleDate) : Except String AppState :=
  match s.currentUserId with
  | none => .error "User not authenticated"
  | some _ =>
    match s.payments.find? (fun p => p.id == id) with
    | none => .ok s
    | some p =>
      let newPaidAmount := p.paidAmount + amount
      let newStatus :=
        if p.totalAmount ≤ newPaidAmount then Status.paid
        else Status.partiallyPaid
      .ok { s with payments := s.payments.map (fun q =>
        if q.id == id then
          { q with paidAmount := newPaidAmount,
                   paidDate := some now,
                   status := newStatus }
        else q) }

/-- Errors surfaced by `PaymentDialog.handleSubmit` (as `toast.error`
calls) and by the store guard. -/
inductive PayError where
  | invalidAmount
  | exceedsRemaining
  | exceedsAdvance
  | notAuthenticated
deriving DecidableEq, Repr

/-- `PaymentDialog.handleSubmit` (`PaymentDialog.tsx:69-94`): computes
`remainingAmount` from the dialog's due `p`, takes the advance draw only
when the checkbox is on, and validates `totalPaying` before calling
`markPaymentPaid(p.id, amount, method, advanceUsed)` — whose store
implementation accepts only `(id, amount)`, so `method` and
`advanceUsed` are dropped. -/
def handleSubmit (s : AppState) (p : RentPayment) (amount advanceAmount : Int)
    (useAdvance : Bool) (now : SimpleDate) : Except PayError AppState :=
  let tenant := s.tenants.find? (fun t => t.id == p.tenantId)
  let remainingAmount := p.totalAmount - p.paidAmount
  let advanceAvailable := (tenant.map (fun t => t.advancePaid)).getD 0
  let advanceUsed := if useAdvance then advanceAmount else 0
  let totalPaying := amount + advanceUsed
  if totalPaying ≤ 0 then .error .invalidAmount
  else if remainingAmount < totalPaying then .error .exceedsRemaining
  else if advanceAvailable < advanceUsed then .error .exceedsAdvance
  else
    match markPaymentPaid s p.id amount now with
    | .ok s' => .ok s'
    | .error _ => .error .notAuthenticated

/-- The open dues of a tenant: every due with `paidAmount < totalAmount`
(spec glossary; the source has no function gathering them — this is the
reading used to state claims about outstanding balances). -/
def openDues (s : AppState) (tid : String) : List RentPayment :=
  s.payments.filter (fun p => p.tenantId == tid && decide (p.paidAmount < p.totalAmount))

/-- Total unpaid remainder across a tenant's open dues. -/
def outstanding (s : AppState) (tid : String) : Int :=
  ((openDues s tid).map (fun p => p.totalAmount - p.paidAmount)).sum

/-- `getEffectiveStatus` (`useDashboardStats.ts:9-20`): a due that is
not fully paid and whose month's 10th has passed reads `overdue`;
otherwise the stored status is returned unchanged. -/
def getEffectiveStatus (p : RentPayment) (now : SimpleDate) : Status :=
  if p.paidAmount < p.totalAmount ∧ tenthOfMonthPassed p.month now = true then
    Status.overdue
  else p.status

/-- Modelled from the spec (§4.1), for comparison with the code's
`getEffectiveStatus`: `paid` iff `paidAmount ≥ totalAmount`, else
`overdue` iff `month < asOfMonth`, else `partial` iff
`0 < paidAmount`, else `pending`. -/
def specEffectiveStatus (p : RentPayment) (asOfMonth : Month) : Status :=
  if p.totalAmount ≤ p.paidAmount then Status.paid
  else if Month.lt p.month asOfMonth then Status.overdue
  else if 0 < p.paidAmount then Status.partiallyPaid
  else Status.pending

/-- `addProperty` (`useStore.ts:632-643`): guard, then one `set` under a
fresh id.  The generated id and timestamp are taken as arguments. -/
def addProperty (s : AppState) (p : Property) : Except String AppState :=
  match s.currentUserId with
  | none => .error "User not authenticated"
  | some _ => .ok { s with properties := s.properties ++ [p] }

/-- `updateProperty`: guard, then a field patch (modelled as a function)
applied to the record with the given id. -/
def updateProperty (s : AppState) (id : String) (f : Property → Property) :
    Except String AppState :=
  match s.currentUserId with
  | none => .error "User not authenticated"
  | some _ =>
    let properties := s.properties.map (fun p => if p.id == id then f p else p)
    .ok { s with properties := properties }

/-- `deleteProperty` (`useStore.ts:652-683`): removes the property and
cascades to its units, tenants, payments and expenses. -/
def deleteProperty (s : AppState) (id : String) : Except String AppState :=
  match s.currentUserId with
  | none => .error "User not authenticated"
  | some _ => .ok { s with
      properties := s.properties.filter (fun p => !(p.id == id)),
      units := s.units.filter (fun u => !(u.propertyId == id)),
      tenants := s.tenants.filter (fun t => !(t.propertyId == id)),
      payments := s.payments.filter (fun p => !(p.propertyId == id)),
      expenses := s.expenses.filter (fun e => !(e.propertyId == some id)) }

/-- `addUnit`: guard, then one `set` under a fresh id. -/
def addUnit (s : AppState) (u : RentalUnit) : Except String AppState :=
  match s.currentUserId with
  | none => .error "User not authenticated"
  | some _ => .ok { s with units := s.units ++ [u] }

/-- `updateUnit`: guard, then a field patch on the record. -/
def updateUnit (s : AppState) (id : String) (f : RentalUnit → RentalUnit) :
    Except String AppState :=
  match s.currentUserId with
  | none => .error "User not authenticated"
  | some _ =>
    let units := s.units.map (fun u => if u.id == id then f u else u)
    .ok { s with units := units }

/-- `deleteUnit` (`useStore.ts:702-721`): removes the unit and cascades
to its tenants and payments. -/
def deleteUnit (s : AppState) (id : String) : Except String AppState :=
  match s.currentUserId with
  | none => .error "User not authenticated"
  | some _ => .ok { s with
      units := s.units.filter (fun u => !(u.id == id)),
      tenants := s.tenants.filter (fun t => !(t.unitId == id)),
      payments := s.payments.filter (fun p => !(p.unitId == id)) }

/-- `addTenant` (`useStore.ts:724-743`): guard, write the tenant record
(fresh id supplied by the caller as `t.id`), then patch the tenant's
unit to `isOccupied := true, tenantId := t.id`. -/
def addTenant (s : AppState) (t : Tenant) : Except String AppState :=
  match s.currentUserId with
  | none => .error "User not authenticated"
  | some _ => .ok { s with
      tenants := s.tenants ++ [t],
      units := s.units.map (fun u =>
        if u.id == t.unitId then
          { u with isOccupied := true, tenantId := some t.id }
        else u) }

/-- `updateTenant`: guard, then a field patch on the tenant record.  The
unit occupancy is not touched. -/
def updateTenant (s : AppState) (id : String) (f : Tenant → Tenant) :
    Except String AppState :=
  match s.currentUserId with
  | none => .error "User not authenticated"
  | some _ =>
    let tenants := s.tenants.map (fun t => if t.id == id then f t else t)
    .ok { s with tenants := tenants }

/-- `deleteTenant` (`useStore.ts:752-775`): guard, find the tenant; if
present remove it, patch its unit to
`isOccupied := false, tenantId := null`, and delete the tenant's
payments.  A missing id is a silent no-op. -/
def deleteTenant (s : AppState) (id : String) : Except String AppState :=
  match s.currentUserId with
  | none => .error "User not authenticated"
  | some _ =>
    match s.tenants.find? (fun t => t.id == id) with
    | none => .ok s
    | some t => .ok { s with
        tenants := s.tenants.filter (fun t' => !(t'.id == id)),
        units := s.units.map (fun u =>
          if u.id == t.unitId then
            { u with isOccupied := false, tenantId := none }
          else u),
        payments := s.payments.filter (fun p => !(p.tenantId == id)) }

/-- `addPayment`: guard, then one `set` under a fresh id. -/
def addPayment (s : AppState) (p : RentPayment) : Except String AppState :=
  match s.currentUserId with
  | none => .error "User not authenticated"
  | some _ => .ok { s with payments := s.payments ++ [p] }

/-- `updatePayment`: guard, then a field patch on the record. -/
def updatePayment (s : AppState) (id : String) (f : RentPayment → RentPayment) :
    Except String AppState :=
  match s.currentUserId with
  | none => .error "User not authenticated"
  | some _ =>
    let payments := s.payments.map (fun p => if p.id == id then f p else p)
    .ok { s with payments := payments }

/-- `addExpense`: guard, then one `set` under a fresh id. -/
def addExpense (s : AppState) (e : Expense) : Except String AppState :=
  match s.currentUserId with
  | none => .error "User not authenticated"
  | some _ => .ok { s with expenses := s.expenses ++ [e] }

/-- `updateExpense`: guard, then a field patch on the record. -/
def updateExpense (s : AppState) (id : String) (f : Expense → Expense) :
    Except String AppState :=
  match s.currentUserId with
  | none => .error "User not authenticated"
  | some _ =>
    let expenses := s.expenses.map (fun e => if e.id == id then f e else e)
    .ok { s with expenses := expenses }

/-- `deleteExpense`: guard, then remove the record. -/
def deleteExpense (s : AppState) (id : String) : Except String AppState :=
  match s.currentUserId with
  | none => .error "User not authenticated"
  | some _ =>
    let expenses := s.expenses.filter (fun e => !(e.id == id))
    .ok { s with expenses := expenses }

/-- One Firebase `set` on `monthlyStatuses/{month}`: the node is keyed
by month, so the write replaces the existing record or creates it. -/
def putStatus (l : List MonthlyStatus) (m : MonthlyStatus) : List MonthlyStatus :=
  if l.any (fun x => x.month == m.month) then
    l.map (fun x => if x.month == m.month then m else x)
  else l ++ [m]

/-- The due record created for one tenant by the generation loop of
`generateMonthlyPayments` (`useStore.ts:893-915`): rent snapshotted from
the unit, water bill from the tenant, nothing paid, status `overdue` or
`pending` by comparing the target month to the wall-clock current
month. -/
def mkDue (t : Tenant) (u : RentalUnit) (month currentMonth : Month)
    (newId : String → String) : RentPayment :=
  { id := newId t.id, tenantId := t.id, unitId := u.id,
    propertyId := u.propertyId, month := month,
    rentAmount := u.monthlyRent, waterBill := t.monthlyWaterBill,
    totalAmount := u.monthlyRent + t.monthlyWaterBill, paidAmount := 0,
    status := if Month.lt month currentMonth then Status.overdue
              else Status.pending,
    paidDate := none }

/-- The due-generation loop of `generateMonthlyPayments`
(`useStore.ts:885-918`), after its guard: for every tenant with no due
for `month`, whose unit exists, append the snapshot due.  `newId`
supplies each loop iteration's `uuidv4()`. -/
def generateDues (s : AppState) (month : Month)
    (currentMonth : Month) (newId : String → String) : AppState :=
  let existingForMonth := s.payments.filter (fun p => p.month == month)
  let newDues := s.tenants.filterMap (fun t =>
    if existingForMonth.any (fun p => p.tenantId == t.id) then none
    else
      match s.units.find? (fun u => u.id == t.unitId) with
      | none => none
      | some u => some (mkDue t u month currentMonth newId))
  { s with payments := s.payments ++ newDues }

/-- `generateMonthlyPayments` (`useStore.ts:880-919`): auth guard, then
the generation loop.  The created records carry only a `createdAt`
timestamp beyond the fields above, which is not modelled. -/
def generateMonthlyPayments (s : AppState) (month : Month)
    (currentMonth : Month) (newId : String → String) : Except String AppState :=
  match s.currentUserId with
  | none => .error "User not authenticated"
  | some _ => .ok (generateDues s month currentMonth newId)

/-- The state produced by a first `startMonth(month)`: the generated
dues plus the status node `set` to
`{isStarted: true, isClosed: false, startedAt: now}`. -/
def startMonthResult (s : AppState) (month : Month) (now : SimpleDate)
    (currentMonth : Month) (newId : String → String) : AppState :=
  let s1 := generateDues s month currentMonth newId
  let statuses := putStatus s1.monthlyStatuses
    { month := month, isStarted := true, isClosed := false,
      startedAt := some now, closedAt := none }
  { s1 with monthlyStatuses := statuses }

/-- `startMonth` (`useStore.ts:848-867`): auth guard; no-op when the
month's status record exists with `isStarted`; otherwise generate the
month's dues and write the started status node. -/
def startMonth (s : AppState) (month : Month) (now : SimpleDate)
    (currentMonth : Month) (newId : String → String) : Except String AppState :=
  match s.currentUserId with
  | some _ =>
    match s.monthlyStatuses.find? (fun m => m.month == month) with
    | some existing =>
      if existing.isStarted then .ok s
      else .ok (startMonthResult s month now currentMonth newId)
    | none => .ok (startMonthResult s month now currentMonth newId)
  | none => .error "User not authenticated" 

/-- The effect of `closeMonth`'s Firebase `update` on
`monthlyStatuses/{month}`: patch the existing record, or create one
whose missing `isStarted` field reads falsy. -/
def closeMonthStatuses (l : List MonthlyStatus) (month : Month)
    (now : SimpleDate) : List MonthlyStatus :=
  if l.any (fun m => m.month == month) then
    l.map (fun m =>
      if m.month == month then
        { m with isClosed := true, closedAt := some now }
      else m)
  else
    l ++ [{ month := month, isStarted := false, isClosed := true,
            startedAt := none, closedAt := some now }]

/-- `closeMonth` (`useStore.ts:869-877`): auth guard, then the
`update` setting `isClosed` and `closedAt`. -/
def closeMonth (s : AppState) (month : Month) (now : SimpleDate) :
    Except String AppState :=
  match s.currentUserId with
  | none => .error "User not authenticated"
  | some _ =>
    .ok { s with monthlyStatuses := closeMonthStatuses s.monthlyStatuses month now }

/-- Errors surfaced by `Dashboard.handleCloseMonth`. -/
inductive CloseError where
  | unresolvedDues
  | notAuthenticated
deriving DecidableEq, Repr

/-- `pendingCount` of `useDashboardStats` for a month: dues whose
effective status is `pending` or `partial`. -/
def pendingCount (s : AppState) (month : Month) (now : SimpleDate) : Nat :=
  (s.payments.filter (fun p => p.month == month)).countP (fun p =>
    getEffectiveStatus p now == Status.pending ||
    getEffectiveStatus p now == Status.partiallyPaid)

/-- `overdueCount` of `useDashboardStats` for a month: dues whose
effective status is `overdue`. -/
def overdueCount (s : AppState) (month : Month) (now : SimpleDate) : Nat :=
  (s.payments.filter (fun p => p.month == month)).countP (fun p =>
    getEffectiveStatus p now == Status.overdue)

/-- `Dashboard.handleCloseMonth` (`Dashboard.tsx:127-134`): refuse with
an error while the month still has pending or overdue dues, otherwise
call the store's `closeMonth`. -/
def handleCloseMonth (s : AppState) (month : Month) (now : SimpleDate) :
    Except CloseError AppState :=
  if 0 < pendingCount s month now ∨ 0 < overdueCount s month now then
    .error .unresolvedDues
  else
    match closeMonth s month now with
    | .ok s' => .ok s'
    | .error _ => .error .notAuthenticated

/-- The per-month lifecycle state, as the Dashboard banner reads it:
`isClosed` first, then `isStarted`, else not started. -/
inductive Phase where
  | notStarted
  | started
  | closed
deriving DecidableEq, Repr

/-- Lifecycle phase of a month, read from the status collection. -/
def monthPhase (l : List MonthlyStatus) (month : Month) : Phase :=
  match l.find? (fun m => m.month == month) with
  | none => .notStarted
  | some m =>
    if m.isClosed then .closed
    else if m.isStarted then .started
    else .notStarted

/-- Lifecycle phase of a month in a store state. -/
def phase (s : AppState) (month : Month) : Phase :=
  monthPhase s.monthlyStatuses month

/-- One user-visible step of the application.  `start` is the Start
Month button (`Dashboard.handleStartMonth`, which calls the store's
`startMonth` unconditionally).  `close` is the Close Month button, which
the Dashboard renders only while `monthStatus?.isStarted &&
!monthStatus?.isClosed`, and which runs `handleCloseMonth`.  `other`
covers every remaining operation of the store, none of which touches the
`monthlyStatuses` collection. -/
inductive UiStep : AppState → AppState → Prop where
  | start (s s' : AppState) (month : Month) (now : SimpleDate)
      (currentMonth : Month) (newId : String → String)
      (h : startMonth s month now currentMonth newId = .ok s') : UiStep s s'
  | close (s s' : AppState) (month : Month) (now : SimpleDate)
      (m : MonthlyStatus)
      (hfind : s.monthlyStatuses.find? (fun x => x.month == month) = some m)
      (hstarted : m.isStarted = true) (hnotclosed : m.isClosed = false)
      (h : handleCloseMonth s month now = .ok s') : UiStep s s'
  | other (s s' : AppState) (h : s'.monthlyStatuses = s.monthlyStatuses) :
      UiStep s s'

/-- The mutating operations of the store, each carrying the arguments of
the corresponding call (generated ids and timestamps included). -/
inductive StoreOp where
  | addProperty (p : Property)
  | updateProperty (id : String) (f : Property → Property)
  | deleteProperty (id : String)
  | addUnit (u : RentalUnit)
  | updateUnit (id : String) (f : RentalUnit → RentalUnit)
  | deleteUnit (id : String)
  | addTenant (t : Tenant)
  | updateTenant (id : String) (f : Tenant → Tenant)
  | deleteTenant (id : String)
  | addPayment (p : RentPayment)
  | updatePayment (id : String) (f : RentPayment → RentPayment)
  | markPaymentPaid (id : String) (amount : Int) (now : SimpleDate)
  | addExpense (e : Expense)
  | updateExpense (id : String) (f : Expense → Expense)
  | deleteExpense (id : String)
  | startMonth (month : Month) (now : SimpleDate) (currentMonth : Month)
      (newId : String → String)
  | closeMonth (month : Month) (now : SimpleDate)
  | generateMonthlyPayments (month : Month) (currentMonth : Month)
      (newId : String → String)

/-- Dispatch a store operation. -/
def applyStoreOp (op : StoreOp) (s : AppState) : Except String AppState :=
  match op with
  | .addProperty p => addProperty s p
  | .updateProperty id f => updateProperty s id f
  | .deleteProperty id => deleteProperty s id
  | .addUnit u => addUnit s u
  | .updateUnit id f => updateUnit s id f
  | .deleteUnit id => deleteUnit s id
  | .addTenant t => addTenant s t
  | .updateTenant id f => updateTenant s id f
  | .deleteTenant id => deleteTenant s id
  | .addPayment p => addPayment s p
  | .updatePayment id f => updatePayment s id f
  | .markPaymentPaid id amount now => markPaymentPaid s id amount now
  | .addExpense e => addExpense s e
  | .updateExpense id f => updateExpense s id f
  | .deleteExpense id => deleteExpense s id
  | .startMonth month now currentMonth newId =>
      startMonth s month now currentMonth newId
  | .closeMonth month now => closeMonth s month now
  | .generateMonthlyPayments month currentMonth newId =>
      generateMonthlyPayments s month currentMonth newId

/-- The occupancy invariant of the data model (spec §3): a unit is
occupied exactly when a live tenant references it, at most one tenant
references any unit, and tenant ids are keys. -/
def OccupancyInv (s : AppState) : Prop :=
  (∀ u ∈ s.units, u.isOccupied = true ↔ ∃ t ∈ s.tenants, t.unitId = u.id) ∧
  (∀ t₁ ∈ s.tenants, ∀ t₂ ∈ s.tenants, t₁.unitId = t₂.unitId → t₁.id = t₂.id) ∧
  (∀ t₁ ∈ s.tenants, ∀ t₂ ∈ s.tenants, t₁.id = t₂.id → t₁ = t₂)

/-- Fixture: a tenant occupying unit `u1` with no advance balance. -/
def exTenant1 : Tenant := ⟨"t1", "u1", "pr1", 0, 0⟩

/-- Fixture: the January 2024 due of `t1`, ₹500 paid of ₹1000. -/
def exDue1 : RentPayment :=
  ⟨"d1", "t1", "u1", "pr1", ⟨2024, 1⟩, 1000, 0, 1000, 500,
   Status.partiallyPaid, none⟩

/-- Fixture: the February 2024 due of `t1`, unpaid ₹1000. -/
def exDue2 : RentPayment :=
  ⟨"d2", "t1", "u1", "pr1", ⟨2024, 2⟩, 1000, 0, 1000, 0, Status.pending, none⟩

/-- Fixture: unit `u1`, occupied by `t1`. -/
def exUnit1 : RentalUnit := ⟨"u1", "pr1", "101", 1000, true, some "t1"⟩

/-- Fixture: a signed-in store whose tenant `t1` has the two dues of the
oldest-first example. -/
def exState1 : AppState :=
  ⟨[], [exUnit1], [exTenant1], [exDue1, exDue2], [], [], some "owner"⟩

/-- Fixture: an instant in March 2024. -/
def exNow : SimpleDate := ⟨2024, 3, 5⟩

/-- Fixture: tenant `t1` with a ₹3000 advance balance. -/
def exTenant3 : Tenant := ⟨"t1", "u1", "pr1", 3000, 500⟩

/-- Fixture: the March 2024 due, rent ₹10000 + water ₹500, unpaid. -/
def exDue3 : RentPayment :=
  ⟨"d1", "t1", "u1", "pr1", ⟨2024, 3⟩, 10000, 500, 10500, 0,
   Status.pending, none⟩

/-- Fixture: a signed-in store for the advance-payment scenario. -/
def exState3 : AppState :=
  ⟨[], [exUnit1], [exTenant3], [exDue3], [], [], some "owner"⟩

/-- Fixture: a due whose stored status is stale: fully paid
(`paidAmount = totalAmount = 100`) but still recorded `pending`. -/
def exDueStale : RentPayment :=
  ⟨"d9", "t9", "u9", "pr9", ⟨2024, 1⟩, 100, 0, 100, 100, Status.pending, none⟩

/-- Fixture: the 5th of January 2024 (the stale due's own month, before
its 10th). -/
def exNowJan5 : SimpleDate := ⟨2024, 1, 5⟩

/-- Fixture: a store with no data and no signed-in user. -/
def exStateNoUser : AppState := ⟨[], [], [], [], [], [], none⟩

/-- Fixture: the empty store of a signed-in user. -/
def exStateEmpty : AppState := ⟨[], [], [], [], [], [], some "owner"⟩

/-- Fixture: the January 2024 due, fully paid. -/
def exDuePaid : RentPayment :=
  ⟨"d1", "t1", "u1", "pr1", ⟨2024, 1⟩, 1000, 0, 1000, 1000, Status.paid, none⟩

/-- Fixture: a signed-in store whose only due is fully paid and whose
January 2024 is started. -/
def exStatePaid : AppState :=
  ⟨[], [exUnit1], [exTenant1], [exDuePaid], [],
   [⟨⟨2024, 1⟩, true, false, some ⟨2024, 1, 1⟩, none⟩], some "owner"⟩

/-- Fixture: a signed-in store with one occupied unit, its tenant, and
no dues or month statuses yet. -/
def exStateStart : AppState :=
  ⟨[], [exUnit1], [exTenant1], [], [], [], some "owner"⟩

/-- Fixture: unit `u0`, occupied by tenant `t0`. -/
def exUnit0 : RentalUnit := ⟨"u0", "pr1", "100", 800, true, some "t0"⟩

/-- Fixture: a vacant unit `u2`. -/
def exUnitVacant : RentalUnit := ⟨"u2", "pr1", "102", 900, false, none⟩

/-- Fixture: tenant `t0`, occupying `u0`. -/
def exTenant0 : Tenant := ⟨"t0", "u0", "pr1", 0, 0⟩

/-- Fixture: a new tenant `t2` moving into the vacant `u2`. -/
def exTenantNew : Tenant := ⟨"t2", "u2", "pr1", 0, 0⟩

/-- Fixture: a due of tenant `t0`. -/
def exPayT0 : RentPayment :=
  ⟨"p0", "t0", "u0", "pr1", ⟨2024, 1⟩, 800, 0, 800, 0, Status.pending, none⟩

/-- Fixture: a signed-in store with one occupied and one vacant unit. -/
def exStateOcc : AppState :=
  ⟨[], [exUnit0, exUnitVacant], [exTenant0], [exPayT0], [], [], some "owner"⟩

/-- Fixture: an occupied unit with zero monthly rent. -/
def exUnitZero : RentalUnit := ⟨"uz", "pr1", "103", 0, true, some "tz"⟩

/-- Fixture: the tenant of the zero-rent unit, with zero water bill. -/
def exTenantZero : Tenant := ⟨"tz", "uz", "pr1", 0, 0⟩

/-- Fixture: a signed-in store whose only unit carries a zero total
(rent 0, water 0) — the forms accept both. -/
def exStateZero : AppState :=
  ⟨[], [exUnitZero], [exTenantZero], [], [], [], some "owner"⟩

/-- Fixture: a due for `(t1, 2024-04)` created ahead of the month start
(as the Payments page's Add Payment flow can). -/
def exDueApr : RentPayment :=
  ⟨"dA", "t1", "u1", "pr1", ⟨2024, 4⟩, 1000, 0, 1000, 1000, Status.paid,
   some ⟨2024, 3, 5⟩⟩

/-- Fixture: a signed-in store where `t1` already has an April 2024 due
before the month is started. -/
def exStateHasDue : AppState :=
  ⟨[], [exUnit1], [exTenant1], [exDueApr], [], [], some "owner"⟩

/-! ## Helper lemmas -/

/-- In a list whose keys are distinct, searching for an element's key
finds that element. -/
theorem find?_key_of_nodup {α : Type} (key : α → String) (l : List α)
    (x : α) (hx : x ∈ l) (hnodup : (l.map key).Nodup) :
    l.find? (fun y => key y == key x) = some x := by
  induction l with
  | nil => cases hx
  | cons a t ih =>
    rw [List.map_cons, List.nodup_cons] at hnodup
    by_cases hkey : (key a == key x) = true
    · have hax : key a = key x := eq_of_beq hkey
      have hxa : x = a := by
        rcases List.mem_cons.mp hx with h | h
        · exact h
        · exact absurd (hax ▸ List.mem_map_of_mem key h) hnodup.1
      subst hxa
      exact List.find?_cons_of_pos t (beq_self_eq_true (key x))
    · have hxt : x ∈ t := by
        rcases List.mem_cons.mp hx with h | h
        · exact absurd (by rw [h]; exact beq_self_eq_true (key a)) hkey
        · exact h
      exact (List.find?_cons_of_neg t hkey).trans (ih hxt hnodup.2)

/-- Every unpaid remainder summed in `outstanding` is nonnegative, so
the outstanding balance is nonnegative. -/
theorem outstanding_nonneg (s : AppState) (tid : String) :
    0 ≤ outstanding s tid := by
  unfold outstanding
  apply List.sum_nonneg
  intro x hx
  rcases List.mem_map.mp hx with ⟨q, hq, rfl⟩
  unfold openDues at hq
  rcases List.mem_filter.mp hq with ⟨-, hopen⟩
  rw [Bool.and_eq_true] at hopen
  have := of_decide_eq_true hopen.2
  omega

/-- An open due's own remainder is at most its tenant's outstanding
balance. -/
theorem remaining_le_outstanding (s : AppState) (p : RentPayment)
    (hp : p ∈ s.payments) (hopen : p.paidAmount < p.totalAmount) :
    p.totalAmount - p.paidAmount ≤ outstanding s p.tenantId := by
  unfold outstanding
  apply List.single_le_sum
  · intro x hx
    rcases List.mem_map.mp hx with ⟨q, hq, rfl⟩
    unfold openDues at hq
    rcases List.mem_filter.mp hq with ⟨-, hopenq⟩
    rw [Bool.and_eq_true] at hopenq
    have := of_decide_eq_true hopenq.2
    omega
  · apply List.mem_map_of_mem
    unfold openDues
    apply List.mem_filter.mpr
    refine ⟨hp, ?_⟩
    rw [Bool.and_eq_true]
    exact ⟨beq_self_eq_true _, decide_eq_true hopen⟩

/-! ## Claims -/

/-- C10: whenever no user is initialized (`currentUserId = null`), every
mutating store operation — add/update/delete of any entity,
`markPaymentPaid`, `startMonth`, `closeMonth`,
`generateMonthlyPayments` — throws `'User not authenticated'` and
performs no database write. -/
theorem c10_auth_required (op : StoreOp) (s : AppState)
    (h : s.currentUserId = none) :
    applyStoreOp op s = .error "User not authenticated" := by
  cases op <;>
    simp only [applyStoreOp, addProperty, updateProperty, deleteProperty,
      addUnit, updateUnit, deleteUnit, addTenant, updateTenant, deleteTenant,
      addPayment, updatePayment, markPaymentPaid, addExpense, updateExpense,
      deleteExpense, startMonth, closeMonth, generateMonthlyPayments, h]

/-- Witness for C10 at a concrete operation and state. -/
theorem c10_witness :
    applyStoreOp (StoreOp.closeMonth ⟨2024, 3⟩ exNow) exStateNoUser =
      .error "User not authenticated" :=
  c10_auth_required (StoreOp.closeMonth ⟨2024, 3⟩ exNow) exStateNoUser rfl

/-- C7 (counterexample): submitting a payment of amount 0 with no
advance draw is rejected with the invalid-amount error — the claim that
it "does not fail" is false on the code. -/
theorem c7_counterexample :
    handleSubmit exState1 exDue1 0 0 false exNow =
      .error PayError.invalidAmount := rfl

/-- C7 (amended): a submission with amount 0 and no advance draw
performs no mutation, but is rejected with `InvalidAmount`
(`'Please enter a valid amount'`) instead of succeeding with an empty
affected-dues list. -/
theorem c7_zero_amount_rejected (s : AppState) (p : RentPayment)
    (now : SimpleDate) :
    handleSubmit s p 0 0 false now = .error PayError.invalidAmount := by
  simp [handleSubmit]

/-- C2 (counterexample): a due with `paidAmount = totalAmount` but a
stale stored status `pending` reads `pending`, not `paid`: the effective
status is not recomputed from the due's fields, so "`paid` iff
`paidAmount >= totalAmount`" is false on the code, which also uses a
10th-of-month rule instead of the claimed lexicographic month rule. -/
theorem c2_counterexample :
    exDueStale.totalAmount ≤ exDueStale.paidAmount ∧
    getEffectiveStatus exDueStale exNowJan5 = Status.pending ∧
    specEffectiveStatus exDueStale ⟨2024, 1⟩ = Status.paid := by
  refine ⟨by decide, rfl, rfl⟩

/-- C2 (amended): the effective status is `overdue` when the due is not
fully paid and the current instant is past the end of the 10th of the
due's month; in every other case — including a fully paid amount under a
stale stored status — the stored status field is returned unchanged. -/
theorem c2_effective_status_rule (p : RentPayment) (now : SimpleDate) :
    (p.paidAmount < p.totalAmount → tenthOfMonthPassed p.month now = true →
      getEffectiveStatus p now = Status.overdue) ∧
    (p.totalAmount ≤ p.paidAmount → getEffectiveStatus p now = p.status) ∧
    (tenthOfMonthPassed p.month now = false →
      getEffectiveStatus p now = p.status) := by
  refine ⟨fun h1 h2 => ?_, fun h => ?_, fun h => ?_⟩
  · unfold getEffectiveStatus
    rw [if_pos ⟨h1, h2⟩]
  · unfold getEffectiveStatus
    rw [if_neg]
    rintro ⟨hlt, -⟩
    omega
  · unfold getEffectiveStatus
    rw [if_neg]
    rintro ⟨-, h2⟩
    rw [h] at h2
    cases h2

/-- Witness for C2's amended rule at concrete dues. -/
theorem c2_witness :
    getEffectiveStatus exDue2 exNow = Status.overdue ∧
    getEffectiveStatus exDueStale exNowJan5 = exDueStale.status :=
  ⟨(c2_effective_status_rule exDue2 exNow).1 (by decide) (by decide),
   (c2_effective_status_rule exDueStale exNowJan5).2.2 (by decide)⟩

/-- C3 (code bug): recording ₹7500 direct plus a ₹3000 advance draw
against an unpaid ₹10500 due succeeds, yet the due's `paidAmount` rises
only by the direct ₹7500 — the advance draw the dialog validated and
displayed is dropped by `markPaymentPaid`, and the tenant's advance
balance stays ₹3000 instead of being decremented to 0. -/
theorem c3_advance_ignored :
    (handleSubmit exState3 exDue3 7500 3000 true exNow).map
      (fun s' => (s'.payments.map (fun p => p.paidAmount),
                  s'.tenants.map (fun t => t.advancePaid))) =
    .ok ([7500], [3000]) := rfl

/-- C1 (counterexample): with dues 2024-01 (₹500 of ₹1000 paid) and
2024-02 (₹0 of ₹1000), no call distributes ₹1200 oldest-first: the
dialog rejects ₹1200 against either due, and the store primitive applied
to the older due overpays it to ₹1700 while leaving the younger at ₹0 —
never the claimed ₹1000/₹1000 and ₹200/₹1000 split. -/
theorem c1_counterexample :
    handleSubmit exState1 exDue1 1200 0 false exNow =
      .error PayError.exceedsRemaining ∧
    handleSubmit exState1 exDue2 1200 0 false exNow =
      .error PayError.exceedsRemaining ∧
    (markPaymentPaid exState1 "d1" 1200 exNow).map
      (fun s' => s'.payments.map (fun p => p.paidAmount)) = .ok [1700, 0] :=
  ⟨rfl, rfl, rfl⟩

/-- C1 (amended): payment recording never spans dues.  A successful
dialog submission requires the requested total (direct amount plus
advance draw) to be positive and at most the selected due's own unpaid
remainder, and it adds exactly the direct amount to that one due —
every other due and every other collection is left unchanged. -/
theorem c1_single_due_allocation (s : AppState) (p : RentPayment)
    (amount advanceAmount : Int) (useAdvance : Bool) (now : SimpleDate)
    (s' : AppState) (hp : p ∈ s.payments)
    (hids : (s.payments.map (fun q => q.id)).Nodup)
    (hok : handleSubmit s p amount advanceAmount useAdvance now = .ok s') :
    0 < amount + (if useAdvance then advanceAmount else 0) ∧
    amount + (if useAdvance then advanceAmount else 0) ≤
      p.totalAmount - p.paidAmount ∧
    s'.payments = s.payments.map (fun q =>
      if q.id == p.id then
        { q with paidAmount := p.paidAmount + amount,
                 paidDate := some now,
                 status := if p.totalAmount ≤ p.paidAmount + amount
                           then Status.paid else Status.partiallyPaid }
      else q) ∧
    s'.tenants = s.tenants ∧ s'.units = s.units ∧
    s'.properties = s.properties ∧ s'.expenses = s.expenses ∧
    s'.monthlyStatuses = s.monthlyStatuses := by
  have hfind : s.payments.find? (fun y => y.id == p.id) = some p :=
    find?_key_of_nodup (fun q => q.id) s.payments p hp hids
  obtain ⟨adv, hadvdef⟩ :
      ∃ adv, (if useAdvance then advanceAmount else 0) = adv := ⟨_, rfl⟩
  simp only [handleSubmit] at hok
  rw [hadvdef] at hok
  rw [hadvdef]
  by_cases h1 : amount + adv ≤ 0
  · rw [if_pos h1] at hok
    cases hok
  rw [if_neg h1] at hok
  by_cases h2 : p.totalAmount - p.paidAmount < amount + adv
  · rw [if_pos h2] at hok
    cases hok
  rw [if_neg h2] at hok
  split at hok
  next hadv => cases hok
  next hadv =>
    rcases hcu : s.currentUserId with _ | uid
    · simp [markPaymentPaid, hcu] at hok
    · simp only [markPaymentPaid, hcu, hfind] at hok
      rw [Except.ok.injEq] at hok
      subst hok
      refine ⟨not_le.mp h1, not_lt.mp h2, rfl, rfl, rfl, rfl, rfl, rfl⟩

/-- Witness for C1's amended single-due allocation at a concrete
successful submission. -/
theorem c1_witness :
    ∃ s', handleSubmit exState1 exDue1 300 0 false exNow = .ok s' ∧
      s'.payments.map (fun p => p.paidAmount) = [800, 0] := by
  refine ⟨_, rfl, ?_⟩
  have h := c1_single_due_allocation exState1 exDue1 300 0 false exNow _
    (by decide) (by decide) rfl
  rw [h.2.2.1]
  rfl

/-- C6: a submission whose requested allocation (direct amount plus
advance draw) exceeds the tenant's total unpaid balance across open
dues is rejected with the exceeds-balance error before any mutation. -/
theorem c6_exceeds_outstanding_rejected (s : AppState) (p : RentPayment)
    (amount advanceAmount : Int) (useAdvance : Bool) (now : SimpleDate)
    (hp : p ∈ s.payments)
    (hover : outstanding s p.tenantId <
      amount + (if useAdvance then advanceAmount else 0)) :
    handleSubmit s p amount advanceAmount useAdvance now =
      .error PayError.exceedsRemaining := by
  have h0 : 0 ≤ outstanding s p.tenantId := outstanding_nonneg s p.tenantId
  have hpos : 0 < amount + (if useAdvance then advanceAmount else 0) :=
    lt_of_le_of_lt h0 hover
  have hrem : p.totalAmount - p.paidAmount <
      amount + (if useAdvance then advanceAmount else 0) := by
    by_cases hopen : p.paidAmount < p.totalAmount
    · exact lt_of_le_of_lt (remaining_le_outstanding s p hp hopen) hover
    · have h1 : p.totalAmount - p.paidAmount ≤ 0 := by omega
      linarith
  simp only [handleSubmit]
  rw [if_neg (not_le.mpr hpos), if_pos hrem]

/-- Witness for C6: requesting ₹2000 against a tenant whose open dues
total ₹1500 unpaid is rejected. -/
theorem c6_witness :
    handleSubmit exState1 exDue1 2000 0 false exNow =
      .error PayError.exceedsRemaining :=
  c6_exceeds_outstanding_rejected exState1 exDue1 2000 0 false exNow
    (by decide) (by decide)

/-- Searching the patched status list for the patched month finds the
patched record, for any patch that preserves the month key on matching
records. -/
theorem find?_month_patch (l : List MonthlyStatus) (month : Month)
    (patch : MonthlyStatus → MonthlyStatus)
    (hpatch : ∀ x, (x.month == month) = true → (patch x).month = x.month) :
    (l.map (fun x => if x.month == month then patch x else x)).find?
        (fun x => x.month == month) =
      (l.find? (fun x => x.month == month)).map patch := by
  induction l with
  | nil => rfl
  | cons a t ih =>
    by_cases ha : (a.month == month) = true
    · have hpa : ((patch a).month == month) = true := by
        rw [hpatch a ha]
        exact ha
      rw [List.map_cons, if_pos ha]
      simp only [List.find?_cons, hpa, ha]
      rfl
    · rw [Bool.not_eq_true] at ha
      rw [List.map_cons, if_neg (by rw [ha]; exact Bool.false_ne_true)]
      simp only [List.find?_cons, ha]
      exact ih

/-- Patching one month's status record does not change what a search
for a different month finds. -/
theorem find?_month_patch_other (l : List MonthlyStatus) (month month' : Month)
    (patch : MonthlyStatus → MonthlyStatus)
    (hpatch : ∀ x, (x.month == month) = true → (patch x).month = x.month)
    (hne : ¬(month' = month)) :
    (l.map (fun x => if x.month == month then patch x else x)).find?
        (fun x => x.month == month') =
      l.find? (fun x => x.month == month') := by
  induction l with
  | nil => rfl
  | cons a t ih =>
    by_cases ha : (a.month == month) = true
    · have hmon : (patch a).month = a.month := hpatch a ha
      have haeq : a.month = month := eq_of_beq ha
      have ha' : (a.month == month') = false :=
        beq_eq_false_iff_ne.mpr (by rw [haeq]; exact fun h => hne h.symm)
      have hpa' : ((patch a).month == month') = false := by
        rw [hmon]
        exact ha'
      rw [List.map_cons, if_pos ha]
      simp only [List.find?_cons, ha', hpa']
      exact ih
    · rw [Bool.not_eq_true] at ha
      rw [List.map_cons, if_neg (by rw [ha]; exact Bool.false_ne_true)]
      by_cases ha' : (a.month == month') = true
      · simp only [List.find?_cons, ha']
      · rw [Bool.not_eq_true] at ha'
        simp only [List.find?_cons, ha']
        exact ih

/-- After `closeMonthStatuses`, the month's record reads closed with the
closing timestamp. -/
theorem closeMonthStatuses_find_self (l : List MonthlyStatus) (month : Month)
    (now : SimpleDate) :
    ((closeMonthStatuses l month now).find? (fun x => x.month == month)).map
        (fun m => (m.isClosed, m.closedAt)) = some (true, some now) := by
  unfold closeMonthStatuses
  by_cases hany : l.any (fun m => m.month == month) = true
  · rw [if_pos hany,
      find?_month_patch l month
        (fun m => { m with isClosed := true, closedAt := some now })
        (fun x hx => rfl)]
    rcases hfind : l.find? (fun x => x.month == month) with _ | m
    · obtain ⟨x, hx, hpx⟩ := List.any_eq_true.mp hany
      exact absurd hpx (List.find?_eq_none.mp hfind x hx)
    · rw [hfind]
      rfl
  · rw [if_neg hany, List.find?_append]
    have hnone : l.find? (fun x => x.month == month) = none := by
      rw [List.find?_eq_none]
      intro x hx hpx
      exact hany (List.any_eq_true.mpr ⟨x, hx, hpx⟩)
    have hsingle : List.find? (fun (x : MonthlyStatus) => x.month == month)
        [{ month := month, isStarted := false, isClosed := true,
           startedAt := none, closedAt := some now }] =
        some { month := month, isStarted := false, isClosed := true,
               startedAt := none, closedAt := some now } :=
      List.find?_cons_of_pos [] (beq_self_eq_true month)
    rw [hnone, Option.none_or, hsingle]
    rfl

/-- `closeMonthStatuses` keeps records of other months. -/
theorem closeMonthStatuses_keeps_other (l : List MonthlyStatus) (month : Month)
    (now : SimpleDate) (m₀ : MonthlyStatus) (hm : m₀ ∈ l)
    (hne : m₀.month ≠ month) :
    m₀ ∈ closeMonthStatuses l month now := by
  unfold closeMonthStatuses
  have hb : ¬((m₀.month == month) = true) := by
    rw [beq_eq_false_iff_ne.mpr hne]
    exact Bool.false_ne_true
  by_cases hany : l.any (fun m => m.month == month) = true
  · rw [if_pos hany]
    exact List.mem_map.mpr ⟨m₀, hm, if_neg hb⟩
  · rw [if_neg hany]
    exact List.mem_append_left _ hm

/-- `closeMonthStatuses` closes the month's own record in place,
keeping its `isStarted` flag and every other field. -/
theorem closeMonthStatuses_patches_self (l : List MonthlyStatus)
    (month : Month) (now : SimpleDate) (m₀ : MonthlyStatus) (hm : m₀ ∈ l)
    (heq : m₀.month = month) :
    { m₀ with isClosed := true, closedAt := some now } ∈
      closeMonthStatuses l month now := by
  unfold closeMonthStatuses
  have hbeq : (m₀.month == month) = true := beq_of_eq heq
  rw [if_pos (List.any_eq_true.mpr ⟨m₀, hm, hbeq⟩)]
  exact List.mem_map.mpr ⟨m₀, hm, if_pos hbeq⟩

/-- The Dashboard's close gate fires exactly when some due of the month
has a non-`paid` effective status. -/
theorem close_gate_iff (s : AppState) (month : Month) (now : SimpleDate) :
    (0 < pendingCount s month now ∨ 0 < overdueCount s month now) ↔
    ∃ p ∈ s.payments, p.month = month ∧
      getEffectiveStatus p now ≠ Status.paid := by
  constructor
  · rintro (h | h) <;>
    · obtain ⟨p, hp, hpred⟩ := List.countP_pos_iff.mp h
      rcases List.mem_filter.mp hp with ⟨hmem, hmonth⟩
      refine ⟨p, hmem, eq_of_beq hmonth, ?_⟩
      intro heq
      rw [heq] at hpred
      simp at hpred
  · rintro ⟨p, hp, hmonth, hne⟩
    have hmem : p ∈ s.payments.filter (fun q => q.month == month) :=
      List.mem_filter.mpr ⟨hp, beq_of_eq hmonth⟩
    rcases heff : getEffectiveStatus p now with _ | _ | _ | _
    · exact Or.inl (List.countP_pos_iff.mpr ⟨p, hmem, by rw [heff]; rfl⟩)
    · exact Or.inl (List.countP_pos_iff.mpr ⟨p, hmem, by rw [heff]; rfl⟩)
    · exact absurd heff hne
    · exact Or.inr (List.countP_pos_iff.mpr ⟨p, hmem, by rw [heff]; rfl⟩)

/-- C4: closing a month through the Dashboard fails with the
unresolved-dues error — leaving every record, the month's status
included, untouched — whenever some due of that month has effective
status `pending`, `partial` or `overdue`; when every due of the month
reads `paid`, it marks the month closed with the closing timestamp,
preserving the record's `isStarted` flag, the other months' records and
every other collection. -/
theorem c4_close_month_gate (s : AppState) (month : Month) (now : SimpleDate)
    (uid : String) (hauth : s.currentUserId = some uid) :
    ((∃ p ∈ s.payments, p.month = month ∧
        getEffectiveStatus p now ≠ Status.paid) →
      handleCloseMonth s month now = .error CloseError.unresolvedDues) ∧
    ((∀ p ∈ s.payments, p.month = month →
        getEffectiveStatus p now = Status.paid) →
      handleCloseMonth s month now =
        .ok { s with monthlyStatuses :=
                closeMonthStatuses s.monthlyStatuses month now } ∧
      ((closeMonthStatuses s.monthlyStatuses month now).find?
          (fun x => x.month == month)).map
        (fun m => (m.isClosed, m.closedAt)) = some (true, some now) ∧
      (∀ m₀ ∈ s.monthlyStatuses, m₀.month ≠ month →
        m₀ ∈ closeMonthStatuses s.monthlyStatuses month now) ∧
      (∀ m₀ ∈ s.monthlyStatuses, m₀.month = month →
        { m₀ with isClosed := true, closedAt := some now } ∈
          closeMonthStatuses s.monthlyStatuses month now)) := by
  constructor
  · intro hexists
    unfold handleCloseMonth
    rw [if_pos ((close_gate_iff s month now).mpr hexists)]
  · intro hall
    have hno : ¬(0 < pendingCount s month now ∨
        0 < overdueCount s month now) := by
      intro h
      obtain ⟨p, hp, hm, hne⟩ := (close_gate_iff s month now).mp h
      exact hne (hall p hp hm)
    refine ⟨?_, closeMonthStatuses_find_self s.monthlyStatuses month now,
      fun m₀ hm hne => closeMonthStatuses_keeps_other _ month now m₀ hm hne,
      fun m₀ hm heq => closeMonthStatuses_patches_self _ month now m₀ hm heq⟩
    unfold handleCloseMonth
    rw [if_neg hno]
    unfold closeMonth
    rw [hauth]

/-- Witness for C4 at concrete stores: January 2024 cannot be closed
while its due is half paid; with the due fully paid it closes. -/
theorem c4_witness :
    handleCloseMonth exState1 ⟨2024, 2⟩ exNow =
        .error CloseError.unresolvedDues ∧
    handleCloseMonth exStatePaid ⟨2024, 1⟩ exNow =
      .ok { exStatePaid with monthlyStatuses :=
              closeMonthStatuses exStatePaid.monthlyStatuses ⟨2024, 1⟩ exNow } :=
  ⟨(c4_close_month_gate exState1 ⟨2024, 2⟩ exNow "owner" rfl).1
      ⟨exDue2, by decide, rfl, by decide⟩,
   ((c4_close_month_gate exStatePaid ⟨2024, 1⟩ exNow "owner" rfl).2
      (by decide)).1⟩

/-- After `putStatus`, looking up the written record's month finds the
written record. -/
theorem find?_putStatus_self (l : List MonthlyStatus) (m : MonthlyStatus) :
    (putStatus l m).find? (fun x => x.month == m.month) = some m := by
  unfold putStatus
  by_cases hany : l.any (fun x => x.month == m.month) = true
  · rw [if_pos hany,
      find?_month_patch l m.month (fun _ => m)
        (fun x hx => (eq_of_beq hx).symm)]
    rcases hfind : l.find? (fun x => x.month == m.month) with _ | y
    · obtain ⟨x, hx, hpx⟩ := List.any_eq_true.mp hany
      exact absurd hpx (List.find?_eq_none.mp hfind x hx)
    · rw [hfind]
      rfl
  · rw [if_neg hany, List.find?_append]
    have hnone : l.find? (fun x => x.month == m.month) = none := by
      rw [List.find?_eq_none]
      intro x hx hpx
      exact hany (List.any_eq_true.mpr ⟨x, hx, hpx⟩)
    have hsingle : List.find? (fun (x : MonthlyStatus) => x.month == m.month)
        [m] = some m :=
      List.find?_cons_of_pos [] (beq_self_eq_true m.month)
    rw [hnone, Option.none_or, hsingle]

/-- `putStatus` does not change what a search for a different month
finds. -/
theorem find?_putStatus_other (l : List MonthlyStatus) (m : MonthlyStatus)
    (month' : Month) (hne : ¬(month' = m.month)) :
    (putStatus l m).find? (fun x => x.month == month') =
      l.find? (fun x => x.month == month') := by
  unfold putStatus
  by_cases hany : l.any (fun x => x.month == m.month) = true
  · rw [if_pos hany]
    exact find?_month_patch_other l m.month month' (fun _ => m)
      (fun x hx => (eq_of_beq hx).symm) hne
  · rw [if_neg hany, List.find?_append]
    have hsingle : List.find? (fun (x : MonthlyStatus) => x.month == month')
        [m] = none := by
      rw [List.find?_eq_none]
      intro x hx hpx
      rw [List.mem_singleton] at hx
      subst hx
      exact hne (eq_of_beq hpx).symm
    rw [hsingle, Option.or_none]

/-- When no due of the target month exists yet, the generation loop
reduces to: one snapshot due per tenant whose unit exists. -/
theorem generateDues_payments_of_no_dues (s : AppState) (month : Month)
    (currentMonth : Month) (newId : String → String)
    (hno : ∀ p ∈ s.payments, p.month ≠ month) :
    (generateDues s month currentMonth newId).payments =
      s.payments ++ s.tenants.filterMap (fun t =>
        match s.units.find? (fun x => x.id == t.unitId) with
        | none => none
        | some u => some (mkDue t u month currentMonth newId)) := by
  have hempty : s.payments.filter (fun p => p.month == month) = [] := by
    rw [List.filter_eq_nil_iff]
    intro p hp hbeq
    exact hno p hp (eq_of_beq hbeq)
  simp only [generateDues, hempty, List.any_nil, Bool.false_eq_true, if_false]

/-- Counting lemma for due generation: the dues created for a unit `u`
are exactly as many as the tenants referencing `u`. -/
theorem dues_filter_count (ts : List Tenant) (units : List RentalUnit)
    (month currentMonth : Month) (newId : String → String) (u : RentalUnit)
    (hu : u ∈ units) (hnodup : (units.map (fun x => x.id)).Nodup) :
    ((ts.filterMap (fun t =>
        match units.find? (fun x => x.id == t.unitId) with
        | none => none
        | some u' => some (mkDue t u' month currentMonth newId))).filter
      (fun p => p.month == month && p.unitId == u.id)).length =
    ts.countP (fun t => t.unitId == u.id) := by
  induction ts with
  | nil => rfl
  | cons t ts ih =>
    rw [List.filterMap_cons]
    by_cases ht : (t.unitId == u.id) = true
    · have hfind : units.find? (fun x => x.id == t.unitId) = some u := by
        have heq : t.unitId = u.id := eq_of_beq ht
        rw [heq]
        exact find?_key_of_nodup (fun x => x.id) units u hu hnodup
      rw [hfind]
      have hpred : ((fun (p : RentPayment) =>
          p.month == month && p.unitId == u.id)
            (mkDue t u month currentMonth newId)) = true := by
        show ((month == month) && (u.id == u.id)) = true
        rw [beq_self_eq_true, beq_self_eq_true]
        rfl
      rw [List.countP_cons_of_pos _ ts ht]
      simp only [List.filter_cons, hpred, if_true, List.length_cons, ih]
    · rw [List.countP_cons_of_neg _ ts ht]
      rcases hfindu : units.find? (fun x => x.id == t.unitId) with _ | u''
      · simp only [hfindu]
        exact ih
      · simp only [hfindu]
        have h0 := List.find?_some hfindu
        have h1 : u''.id = t.unitId := eq_of_beq h0
        have hne : ((mkDue t u'' month currentMonth newId).unitId == u.id)
            = false := by
          show (u''.id == u.id) = false
          rw [h1]
          rw [Bool.not_eq_true] at ht
          exact ht
        simp only [List.filter_cons, hne, Bool.and_false, Bool.false_eq_true,
          if_false]
        exact ih

/-- A generated due's stored status agrees with the spec's §4.1 rule
evaluated at generation time, whenever its total is positive. -/
theorem mkDue_status_spec (t : Tenant) (u : RentalUnit)
    (month currentMonth : Month) (newId : String → String)
    (hpos : 0 < u.monthlyRent + t.monthlyWaterBill) :
    (mkDue t u month currentMonth newId).status =
      specEffectiveStatus (mkDue t u month currentMonth newId) currentMonth := by
  unfold specEffectiveStatus
  simp only [mkDue]
  rw [if_neg (not_le.mpr hpos)]
  by_cases hlt : Month.lt month currentMonth = true
  · rw [if_pos hlt, if_pos hlt]
  · rw [if_neg hlt, if_neg hlt, if_neg (lt_irrefl 0)]

/-- The generation loop always appends: the new payments are the old
ones plus one optional snapshot due per tenant, skipping tenants that
already have a due for the month. -/
theorem generateDues_payments (s : AppState) (month : Month)
    (currentMonth : Month) (newId : String → String) :
    (generateDues s month currentMonth newId).payments =
      s.payments ++ s.tenants.filterMap (fun t =>
        if (s.payments.filter (fun p => p.month == month)).any
            (fun p => p.tenantId == t.id) then none
        else
          match s.units.find? (fun x => x.id == t.unitId) with
          | none => none
          | some u => some (mkDue t u month currentMonth newId)) := rfl

/-- If no listed tenant bears the id `tidA`, the generation loop creates
no due with tenant id `tidA`. -/
theorem generated_dues_none (ts : List Tenant) (units : List RentalUnit)
    (existing : List RentPayment) (month currentMonth : Month)
    (newId : String → String) (tidA : String)
    (hnot : ∀ t' ∈ ts, t'.id ≠ tidA) :
    (ts.filterMap (fun t =>
        if existing.any (fun p => p.tenantId == t.id) then none
        else
          match units.find? (fun x => x.id == t.unitId) with
          | none => none
          | some u => some (mkDue t u month currentMonth newId))).filter
      (fun p => p.month == month && p.tenantId == tidA) = [] := by
  induction ts with
  | nil => rfl
  | cons t' ts ih =>
    have hrest : ∀ t'' ∈ ts, t''.id ≠ tidA :=
      fun t'' h => hnot t'' (List.mem_cons_of_mem t' h)
    have hne : (t'.id == tidA) = false :=
      beq_eq_false_iff_ne.mpr (hnot t' (List.mem_cons_self t' ts))
    rw [List.filterMap_cons]
    by_cases hts : existing.any (fun p => p.tenantId == t'.id) = true
    · rw [if_pos hts]
      exact ih hrest
    · rw [if_neg hts]
      rcases hfu : units.find? (fun x => x.id == t'.unitId) with _ | u'
      · simp only [hfu]
        exact ih hrest
      · simp only [hfu]
        have hpredf : ((fun (p : RentPayment) =>
            p.month == month && p.tenantId == tidA)
              (mkDue t' u' month currentMonth newId)) = false := by
          show ((month == month) && (t'.id == tidA)) = false
          rw [hne, Bool.and_false]
        simp only [List.filter_cons, hpredf, Bool.false_eq_true, if_false]
        exact ih hrest

/-- A tenant that already has a due for the month (and every tenant
sharing that id) is skipped: the loop creates no due bearing that
tenant id. -/
theorem generated_dues_skip (ts : List Tenant) (units : List RentalUnit)
    (existing : List RentPayment) (month currentMonth : Month)
    (newId : String → String) (tidA : String)
    (hskip : existing.any (fun p => p.tenantId == tidA) = true) :
    (ts.filterMap (fun t =>
        if existing.any (fun p => p.tenantId == t.id) then none
        else
          match units.find? (fun x => x.id == t.unitId) with
          | none => none
          | some u => some (mkDue t u month currentMonth newId))).filter
      (fun p => p.month == month && p.tenantId == tidA) = [] := by
  induction ts with
  | nil => rfl
  | cons t' ts ih =>
    rw [List.filterMap_cons]
    by_cases hts : existing.any (fun p => p.tenantId == t'.id) = true
    · rw [if_pos hts]
      exact ih
    · rw [if_neg hts]
      rcases hfu : units.find? (fun x => x.id == t'.unitId) with _ | u'
      · simp only [hfu]
        exact ih
      · simp only [hfu]
        have hne : (t'.id == tidA) = false := by
          rw [beq_eq_false_iff_ne]
          intro hc
          rw [hc] at hts
          exact hts hskip
        have hpredf : ((fun (p : RentPayment) =>
            p.month == month && p.tenantId == tidA)
              (mkDue t' u' month currentMonth newId)) = false := by
          show ((month == month) && (t'.id == tidA)) = false
          rw [hne, Bool.and_false]
        simp only [List.filter_cons, hpredf, Bool.false_eq_true, if_false]
        exact ih

/-- A listed tenant with a distinct id, no due for the month, and an
existing unit receives exactly its snapshot due. -/
theorem generated_dues_create (ts : List Tenant) (units : List RentalUnit)
    (existing : List RentPayment) (month currentMonth : Month)
    (newId : String → String) (t : Tenant) (u : RentalUnit)
    (ht : t ∈ ts) (hnodupT : (ts.map (fun x => x.id)).Nodup)
    (hnoskip : existing.any (fun p => p.tenantId == t.id) = false)
    (hfindu : units.find? (fun x => x.id == t.unitId) = some u) :
    (ts.filterMap (fun t' =>
        if existing.any (fun p => p.tenantId == t'.id) then none
        else
          match units.find? (fun x => x.id == t'.unitId) with
          | none => none
          | some u' => some (mkDue t' u' month currentMonth newId))).filter
      (fun p => p.month == month && p.tenantId == t.id) =
    [mkDue t u month currentMonth newId] := by
  induction ts with
  | nil => cases ht
  | cons t' ts ih =>
    rw [List.map_cons, List.nodup_cons] at hnodupT
    rw [List.filterMap_cons]
    by_cases heq : t' = t
    · subst heq
      rw [if_neg (by rw [hnoskip]; exact Bool.false_ne_true)]
      simp only [hfindu]
      have hpredt : ((fun (p : RentPayment) =>
          p.month == month && p.tenantId == t'.id)
            (mkDue t' u month currentMonth newId)) = true := by
        show ((month == month) && (t'.id == t'.id)) = true
        rw [beq_self_eq_true, beq_self_eq_true]
        rfl
      simp only [List.filter_cons, hpredt, if_true]
      have hnot : ∀ t'' ∈ ts, t''.id ≠ t'.id := by
        intro t'' h hc
        exact hnodupT.1 (hc ▸ List.mem_map_of_mem (fun x => x.id) h)
      rw [generated_dues_none ts units existing month currentMonth newId
        t'.id hnot]
    · have htts : t ∈ ts := by
        rcases List.mem_cons.mp ht with h | h
        · exact absurd h.symm heq
        · exact h
      have hidne : (t'.id == t.id) = false := by
        rw [beq_eq_false_iff_ne]
        intro hc
        exact hnodupT.1 (hc ▸ List.mem_map_of_mem (fun x => x.id) htts)
      by_cases hts : existing.any (fun p => p.tenantId == t'.id) = true
      · rw [if_pos hts]
        exact ih htts hnodupT.2
      · rw [if_neg hts]
        rcases hfu : units.find? (fun x => x.id == t'.unitId) with _ | u'
        · simp only [hfu]
          exact ih htts hnodupT.2
        · simp only [hfu]
          have hpredf : ((fun (p : RentPayment) =>
              p.month == month && p.tenantId == t.id)
                (mkDue t' u' month currentMonth newId)) = false := by
            show ((month == month) && (t'.id == t.id)) = false
            rw [hidne, Bool.and_false]
          simp only [List.filter_cons, hpredf, Bool.false_eq_true, if_false]
          exact ih htts hnodupT.2

/-- C5 (counterexample): the claim's "status derived by the §4.1 rule at
that instant" fails on a creatable zero-total unit (rent 0, water 0):
the first start of April 2024 creates its due with stored status
`pending`, while §4.1 at that instant says `paid`
(`paidAmount = totalAmount = 0`). -/
theorem c5_counterexample :
    startMonth exStateZero ⟨2024, 4⟩ exNow ⟨2024, 3⟩ (fun _ => "dz") =
      .ok (startMonthResult exStateZero ⟨2024, 4⟩ exNow ⟨2024, 3⟩
        (fun _ => "dz")) ∧
    (startMonthResult exStateZero ⟨2024, 4⟩ exNow ⟨2024, 3⟩
        (fun _ => "dz")).payments.map
      (fun p => (p.totalAmount, p.paidAmount, p.status)) =
      [(0, 0, Status.pending)] ∧
    specEffectiveStatus
      (mkDue exTenantZero exUnitZero ⟨2024, 4⟩ ⟨2024, 3⟩ (fun _ => "dz"))
      ⟨2024, 3⟩ = Status.paid :=
  ⟨rfl, rfl, rfl⟩

/-- C5 (amended): `startMonth` is idempotent — a no-op if the month's
status record is started (which covers months closed through the app
flow), and a second call reproduces the first's state.  On a first
start, every tenant who already has a due for the month is skipped
(that tenant's month-dues are exactly the pre-existing ones), and every
tenant with no due for the month whose unit exists receives exactly one
due snapshotting `rentAmount = unit.monthlyRent` and
`waterBill = tenant.monthlyWaterBill` with `paidAmount = 0` and stored
status `overdue` if the month precedes the wall-clock current month,
else `pending` — which agrees with the §4.1 rule whenever the due's
total is positive, and stores `pending`/`overdue` where §4.1 says
`paid` on a zero total.  When no due for the month pre-exists, this
yields exactly one due per occupied unit having exactly one tenant. -/
theorem c5_start_month_idempotent (s : AppState) (month : Month)
    (now : SimpleDate) (currentMonth : Month) (newId : String → String)
    (uid : String) (hauth : s.currentUserId = some uid)
    (hnodupU : (s.units.map (fun x => x.id)).Nodup)
    (hnodupT : (s.tenants.map (fun x => x.id)).Nodup) :
    (∀ m₀, s.monthlyStatuses.find? (fun x => x.month == month) = some m₀ →
      m₀.isStarted = true →
      startMonth s month now currentMonth newId = .ok s) ∧
    ((∀ m₀ ∈ s.monthlyStatuses, m₀.month = month → m₀.isStarted = false) →
      startMonth s month now currentMonth newId =
        .ok (startMonthResult s month now currentMonth newId) ∧
      (∀ now' currentMonth' newId',
        startMonth (startMonthResult s month now currentMonth newId) month
            now' currentMonth' newId' =
          .ok (startMonthResult s month now currentMonth newId)) ∧
      (∀ t ∈ s.tenants,
        (∃ p ∈ s.payments, p.month = month ∧ p.tenantId = t.id) →
        (startMonthResult s month now currentMonth newId).payments.filter
            (fun p => p.month == month && p.tenantId == t.id) =
          s.payments.filter
            (fun p => p.month == month && p.tenantId == t.id)) ∧
      (∀ t ∈ s.tenants, ∀ u,
        (∀ p ∈ s.payments, p.month = month → p.tenantId ≠ t.id) →
        s.units.find? (fun x => x.id == t.unitId) = some u →
        (startMonthResult s month now currentMonth newId).payments.filter
            (fun p => p.month == month && p.tenantId == t.id) =
          [mkDue t u month currentMonth newId] ∧
        (mkDue t u month currentMonth newId).rentAmount = u.monthlyRent ∧
        (mkDue t u month currentMonth newId).waterBill =
          t.monthlyWaterBill ∧
        (mkDue t u month currentMonth newId).paidAmount = 0 ∧
        (mkDue t u month currentMonth newId).status =
          (if Month.lt month currentMonth then Status.overdue
           else Status.pending) ∧
        (0 < u.monthlyRent + t.monthlyWaterBill →
          (mkDue t u month currentMonth newId).status =
            specEffectiveStatus (mkDue t u month currentMonth newId)
              currentMonth)) ∧
      ((∀ p ∈ s.payments, p.month ≠ month) →
        ∀ u ∈ s.units, u.isOccupied = true →
        s.tenants.countP (fun t => t.unitId == u.id) = 1 →
        ((startMonthResult s month now currentMonth newId).payments.filter
          (fun p => p.month == month && p.unitId == u.id)).length = 1)) := by
  have hpg : (startMonthResult s month now currentMonth newId).payments =
      s.payments ++ s.tenants.filterMap (fun t =>
        if (s.payments.filter (fun p => p.month == month)).any
            (fun p => p.tenantId == t.id) then none
        else
          match s.units.find? (fun x => x.id == t.unitId) with
          | none => none
          | some u => some (mkDue t u month currentMonth newId)) :=
    generateDues_payments s month currentMonth newId
  constructor
  · intro m₀ hfind hstart
    simp only [startMonth, hauth, hfind, hstart, if_true]
  · intro hns
    have hstartEq : startMonth s month now currentMonth newId =
        .ok (startMonthResult s month now currentMonth newId) := by
      simp only [startMonth, hauth]
      rcases hfind : s.monthlyStatuses.find? (fun x => x.month == month)
        with _ | m₀
      · rw [hfind]
      · have h0 := List.find?_some hfind
        have h1 : m₀.isStarted = false :=
          hns m₀ (List.mem_of_find?_eq_some hfind) (eq_of_beq h0)
        rw [hfind]
        simp only [h1, Bool.false_eq_true, if_false]
    refine ⟨hstartEq, ?_, ?_, ?_, ?_⟩
    · intro now' currentMonth' newId'
      have hcu : (startMonthResult s month now
          currentMonth newId).currentUserId = some uid := hauth
      have hfind2 : (startMonthResult s month now
          currentMonth newId).monthlyStatuses.find?
            (fun x => x.month == month) =
          some ⟨month, true, false, some now, none⟩ :=
        find?_putStatus_self
          (generateDues s month currentMonth newId).monthlyStatuses
          ⟨month, true, false, some now, none⟩
      simp only [startMonth, hcu, hfind2, if_true]
    · intro t ht hex
      obtain ⟨p, hp, hpm, hpt⟩ := hex
      have hskip : (s.payments.filter (fun q => q.month == month)).any
          (fun q => q.tenantId == t.id) = true :=
        List.any_eq_true.mpr ⟨p,
          List.mem_filter.mpr ⟨hp, beq_of_eq hpm⟩, beq_of_eq hpt⟩
      rw [hpg, List.filter_append,
        generated_dues_skip s.tenants s.units
          (s.payments.filter (fun p => p.month == month)) month
          currentMonth newId t.id hskip,
        List.append_nil]
    · intro t ht u hnoP hfindu
      refine ⟨?_, rfl, rfl, rfl, rfl,
        fun hpos => mkDue_status_spec t u month currentMonth newId hpos⟩
      have hnoskip : (s.payments.filter (fun q => q.month == month)).any
          (fun q => q.tenantId == t.id) = false := by
        rw [List.any_eq_false]
        intro q hq hbeq
        obtain ⟨hqmem, hqmon⟩ := List.mem_filter.mp hq
        exact hnoP q hqmem (eq_of_beq hqmon) (eq_of_beq hbeq)
      have hsfilter : s.payments.filter
          (fun p => p.month == month && p.tenantId == t.id) = [] := by
        rw [List.filter_eq_nil_iff]
        intro q hq hpred
        rw [Bool.and_eq_true] at hpred
        exact hnoP q hq (eq_of_beq hpred.1) (eq_of_beq hpred.2)
      rw [hpg, List.filter_append, hsfilter, List.nil_append,
        generated_dues_create s.tenants s.units
          (s.payments.filter (fun p => p.month == month)) month
          currentMonth newId t u ht hnodupT hnoskip hfindu]
    · intro hno u hu hocc hcnt
      have hpay := generateDues_payments_of_no_dues s month currentMonth
        newId hno
      have hpr : (startMonthResult s month now currentMonth
          newId).payments =
          (generateDues s month currentMonth newId).payments := rfl
      rw [hpr, hpay, List.filter_append]
      have hsfilter : s.payments.filter
          (fun p => p.month == month && p.unitId == u.id) = [] := by
        rw [List.filter_eq_nil_iff]
        intro p hp hpred
        rw [Bool.and_eq_true] at hpred
        exact hno p hp (eq_of_beq hpred.1)
      rw [hsfilter, List.nil_append,
        dues_filter_count s.tenants s.units month currentMonth newId u hu
          hnodupU, hcnt]

/-- Witness for C5's amended theorem: a fresh start creates exactly one
due for the occupied unit, and on a store where `t1` already has an
April 2024 due, starting the month leaves that tenant's dues exactly as
they were. -/
theorem c5_witness :
    startMonth exStateStart ⟨2024, 4⟩ exNow ⟨2024, 3⟩ (fun t => "due-" ++ t) =
      .ok (startMonthResult exStateStart ⟨2024, 4⟩ exNow ⟨2024, 3⟩
        (fun t => "due-" ++ t)) ∧
    ((startMonthResult exStateStart ⟨2024, 4⟩ exNow ⟨2024, 3⟩
        (fun t => "due-" ++ t)).payments.filter
      (fun p => p.month == ⟨2024, 4⟩ && p.unitId == "u1")).length = 1 ∧
    (startMonthResult exStateHasDue ⟨2024, 4⟩ exNow ⟨2024, 3⟩
        (fun t => "x" ++ t)).payments.filter
      (fun p => p.month == ⟨2024, 4⟩ && p.tenantId == "t1") =
      exStateHasDue.payments.filter
        (fun p => p.month == ⟨2024, 4⟩ && p.tenantId == "t1") := by
  have h1 := (c5_start_month_idempotent exStateStart ⟨2024, 4⟩ exNow
    ⟨2024, 3⟩ (fun t => "due-" ++ t) "owner" rfl (by decide)
    (by decide)).2 (by intro m hm; cases hm)
  have h2 := (c5_start_month_idempotent exStateHasDue ⟨2024, 4⟩ exNow
    ⟨2024, 3⟩ (fun t => "x" ++ t) "owner" rfl (by decide)
    (by decide)).2 (by intro m hm; cases hm)
  refine ⟨h1.1, ?_, ?_⟩
  · exact h1.2.2.2.2 (by intro p hp; cases hp) exUnit1 (by decide)
      (by decide) (by decide)
  · exact h2.2.2.1 exTenant1 (by decide) ⟨exDueApr, by decide, rfl, rfl⟩

/-- Members of `putStatus l m` come from `l` or are the written record. -/
theorem mem_putStatus (l : List MonthlyStatus) (m x : MonthlyStatus)
    (hx : x ∈ putStatus l m) : x ∈ l ∨ x = m := by
  unfold putStatus at hx
  by_cases hany : l.any (fun y => y.month == m.month) = true
  · rw [if_pos hany] at hx
    obtain ⟨y, hy, heq⟩ := List.mem_map.mp hx
    by_cases hym : (y.month == m.month) = true
    · rw [if_pos hym] at heq
      exact Or.inr heq.symm
    · rw [if_neg hym] at heq
      exact Or.inl (heq ▸ hy)
  · rw [if_neg hany] at hx
    rcases List.mem_append.mp hx with h | h
    · exact Or.inl h
    · exact Or.inr (List.mem_singleton.mp h)

/-- Members of `closeMonthStatuses` on a present month come from the old
list, possibly with `isClosed`/`closedAt` patched. -/
theorem mem_closeMonthStatuses (l : List MonthlyStatus) (month : Month)
    (now : SimpleDate) (x : MonthlyStatus)
    (hx : x ∈ closeMonthStatuses l month now)
    (hany : l.any (fun y => y.month == month) = true) :
    ∃ y ∈ l, x = y ∨ x = { y with isClosed := true, closedAt := some now } := by
  unfold closeMonthStatuses at hx
  rw [if_pos hany] at hx
  obtain ⟨y, hy, heq⟩ := List.mem_map.mp hx
  by_cases hym : (y.month == month) = true
  · rw [if_pos hym] at heq
    exact ⟨y, hy, Or.inr heq.symm⟩
  · rw [if_neg hym] at heq
    exact ⟨y, hy, Or.inl heq.symm⟩

/-- Case analysis of a successful `startMonth`: either a no-op on an
already started month, or a first start producing `startMonthResult`. -/
theorem startMonth_ok_cases (s s' : AppState) (month : Month)
    (now : SimpleDate) (currentMonth : Month) (newId : String → String)
    (h : startMonth s month now currentMonth newId = .ok s') :
    s' = s ∨
    ((s.monthlyStatuses.find? (fun x => x.month == month) = none ∨
      (∃ m₀, s.monthlyStatuses.find? (fun x => x.month == month) = some m₀ ∧
        m₀.isStarted = false)) ∧
      s' = startMonthResult s month now currentMonth newId) := by
  unfold startMonth at h
  rcases hcu : s.currentUserId with _ | uid
  · rw [hcu] at h
    cases h
  · simp only [hcu] at h
    rcases hf : s.monthlyStatuses.find? (fun m => m.month == month) with _ | m₀
    · simp only [hf] at h
      exact Or.inr ⟨Or.inl hf, (Except.ok.inj h).symm⟩
    · simp only [hf] at h
      by_cases hst : m₀.isStarted = true
      · rw [if_pos hst] at h
        exact Or.inl (Except.ok.inj h).symm
      · rw [if_neg hst] at h
        rw [Bool.not_eq_true] at hst
        exact Or.inr ⟨Or.inr ⟨m₀, hf, hst⟩, (Except.ok.inj h).symm⟩

/-- A successful `handleCloseMonth` yields exactly the close-patched
status list. -/
theorem handleCloseMonth_ok_state (s s' : AppState) (month : Month)
    (now : SimpleDate) (h : handleCloseMonth s month now = .ok s') :
    s' = { s with monthlyStatuses :=
      closeMonthStatuses s.monthlyStatuses month now } := by
  unfold handleCloseMonth at h
  by_cases hgate : 0 < pendingCount s month now ∨ 0 < overdueCount s month now
  · rw [if_pos hgate] at h
    cases h
  · rw [if_neg hgate] at h
    unfold closeMonth at h
    rcases hcu : s.currentUserId with _ | uid
    · rw [hcu] at h
      cases h
    · rw [hcu] at h
      exact (Except.ok.inj h).symm

/-- Every status record of a reachable state is started: the only
writers are `startMonth` (which writes a started record) and the gated
close (which preserves `isStarted`). -/
def statusesStarted (s : AppState) : Prop :=
  ∀ m ∈ s.monthlyStatuses, m.isStarted = true

/-- One UI step preserves `statusesStarted`. -/
theorem statusesStarted_step (s s' : AppState) (h : UiStep s s')
    (hinv : statusesStarted s) : statusesStarted s' := by
  cases h with
  | start month now currentMonth newId hstart =>
    rcases startMonth_ok_cases s s' month now currentMonth newId hstart with
      heq | ⟨-, heq⟩
    · exact heq ▸ hinv
    · subst heq
      intro m hm
      rcases mem_putStatus _ _ m hm with hmem | hrec
      · exact hinv m hmem
      · rw [hrec]
  | close month now m hfind hstarted hnotclosed hclose =>
    have heq := handleCloseMonth_ok_state s s' month now hclose
    subst heq
    intro x hx
    have hpm := List.find?_some hfind
    have hany : s.monthlyStatuses.any (fun y => y.month == month) = true :=
      List.any_eq_true.mpr ⟨m, List.mem_of_find?_eq_some hfind, hpm⟩
    obtain ⟨y, hy, hcase⟩ :=
      mem_closeMonthStatuses s.monthlyStatuses month now x hx hany
    rcases hcase with h1 | h1
    · rw [h1]
      exact hinv y hy
    · rw [h1]
      exact hinv y hy
  | other heq =>
    intro m hm
    exact hinv m (heq ▸ hm)

/-- C8: the per-month lifecycle follows
`NotStarted -> Started -> Closed`.  From every state reachable through
the user-invocable operations (Start Month, the gated Close Month
button, and every operation that does not touch month statuses), no step
moves a month from `NotStarted` directly to `Closed`, none moves it out
of `Closed`, and none moves it from `Started` back to `NotStarted`. -/
theorem c8_month_lifecycle (s0 s s' : AppState) (month : Month)
    (h0 : s0.monthlyStatuses = [])
    (hr : Relation.ReflTransGen UiStep s0 s)
    (hstep : UiStep s s') :
    (phase s month = Phase.notStarted → phase s' month ≠ Phase.closed) ∧
    (phase s month = Phase.closed → phase s' month = Phase.closed) ∧
    (phase s month = Phase.started → phase s' month ≠ Phase.notStarted) := by
  have hinv : statusesStarted s := by
    clear hstep
    induction hr with
    | refl =>
      intro m hm
      rw [h0] at hm
      cases hm
    | tail h1 h2 ih => exact statusesStarted_step _ _ h2 ih
  cases hstep with
  | other heq =>
    have hph : phase s' month = phase s month := by
      unfold phase
      rw [heq]
    rw [hph]
    exact ⟨fun h => by rw [h]; decide, fun h => h, fun h => by rw [h]; decide⟩
  | start month' now currentMonth newId hstart =>
    rcases startMonth_ok_cases s s' month' now currentMonth newId hstart with
      heq | ⟨hcase, heq⟩
    · subst heq
      exact ⟨fun h => by rw [h]; decide, fun h => h, fun h => by rw [h]; decide⟩
    · subst heq
      by_cases hm : month = month'
      · subst hm
        have hphs : phase s month = Phase.notStarted := by
          rcases hcase with hnone | ⟨m₀, hsome, hfalse⟩
          · unfold phase monthPhase
            rw [hnone]
          · exact absurd (hinv m₀ (List.mem_of_find?_eq_some hsome))
              (by rw [hfalse]; exact Bool.false_ne_true)
        have hf2 : (startMonthResult s month now currentMonth
            newId).monthlyStatuses.find? (fun x => x.month == month) =
            some ⟨month, true, false, some now, none⟩ :=
          find?_putStatus_self
            (generateDues s month currentMonth newId).monthlyStatuses
            ⟨month, true, false, some now, none⟩
        have hphs' : phase (startMonthResult s month now currentMonth newId)
            month = Phase.started := by
          unfold phase monthPhase
          rw [hf2]
          rfl
        rw [hphs, hphs']
        exact ⟨fun h => by decide, fun h => absurd h (by decide),
          fun h => absurd h (by decide)⟩
      · have hf3 : (startMonthResult s month' now currentMonth
            newId).monthlyStatuses.find? (fun x => x.month == month) =
            s.monthlyStatuses.find? (fun x => x.month == month) :=
          find?_putStatus_other
            (generateDues s month' currentMonth newId).monthlyStatuses
            ⟨month', true, false, some now, none⟩ month hm
        have hph : phase (startMonthResult s month' now currentMonth newId)
            month = phase s month := by
          unfold phase monthPhase
          rw [hf3]
        rw [hph]
        exact ⟨fun h => by rw [h]; decide, fun h => h,
          fun h => by rw [h]; decide⟩
  | close month' now m hfind hstarted hnotclosed hclose =>
    have heq := handleCloseMonth_ok_state s s' month' now hclose
    have hpm := List.find?_some hfind
    have hany : s.monthlyStatuses.any (fun y => y.month == month') = true :=
      List.any_eq_true.mpr ⟨m, List.mem_of_find?_eq_some hfind, hpm⟩
    have hph0 : phase s' month =
        monthPhase (closeMonthStatuses s.monthlyStatuses month' now) month := by
      rw [heq]
      rfl
    by_cases hm : month = month'
    · subst hm
      have hphs : phase s month = Phase.started := by
        unfold phase monthPhase
        rw [hfind]
        simp only [hnotclosed, hstarted, Bool.false_eq_true, if_false, if_true]
      have hf4 : (closeMonthStatuses s.monthlyStatuses month now).find?
          (fun x => x.month == month) =
          some { m with isClosed := true, closedAt := some now } := by
        unfold closeMonthStatuses
        rw [if_pos hany,
          find?_month_patch s.monthlyStatuses month
            (fun y => { y with isClosed := true, closedAt := some now })
            (fun x hx => rfl),
          hfind]
        rfl
      have hphs' : monthPhase (closeMonthStatuses s.monthlyStatuses month now)
          month = Phase.closed := by
        unfold monthPhase
        rw [hf4]
        rfl
      rw [hph0, hphs, hphs']
      exact ⟨fun h => absurd h (by decide), fun h => absurd h (by decide),
        fun h => by decide⟩
    · have hf5 : (closeMonthStatuses s.monthlyStatuses month' now).find?
          (fun x => x.month == month) =
          s.monthlyStatuses.find? (fun x => x.month == month) := by
        unfold closeMonthStatuses
        rw [if_pos hany,
          find?_month_patch_other s.monthlyStatuses month' month
            (fun y => { y with isClosed := true, closedAt := some now })
            (fun x hx => rfl) hm]
      have hph : monthPhase (closeMonthStatuses s.monthlyStatuses month' now)
          month = phase s month := by
        unfold phase monthPhase
        rw [hf5]
      rw [hph0, hph]
      exact ⟨fun h => by rw [h]; decide, fun h => h,
        fun h => by rw [h]; decide⟩

/-- Witness for C8: the first step out of the empty store — starting
April 2024 — does not close it. -/
theorem c8_witness :
    phase (startMonthResult exStateEmpty ⟨2024, 4⟩ exNow ⟨2024, 3⟩
      (fun _ => "d")) ⟨2024, 4⟩ ≠ Phase.closed :=
  (c8_month_lifecycle exStateEmpty exStateEmpty
      (startMonthResult exStateEmpty ⟨2024, 4⟩ exNow ⟨2024, 3⟩ (fun _ => "d"))
      ⟨2024, 4⟩ rfl Relation.ReflTransGen.refl
      (UiStep.start exStateEmpty _ ⟨2024, 4⟩ exNow ⟨2024, 3⟩ (fun _ => "d")
        rfl)).1 (by decide)

/-- A successful `addTenant` appends the tenant and patches its unit to
occupied. -/
theorem addTenant_ok_state (s s₁ : AppState) (t : Tenant)
    (h : addTenant s t = .ok s₁) :
    s₁ = { s with
      tenants := s.tenants ++ [t],
      units := s.units.map (fun u =>
        if u.id == t.unitId then
          { u with isOccupied := true, tenantId := some t.id }
        else u) } := by
  unfold addTenant at h
  rcases hcu : s.currentUserId with _ | uid
  · rw [hcu] at h
    cases h
  · rw [hcu] at h
    exact (Except.ok.inj h).symm

/-- A successful `deleteTenant` whose target is found removes the
tenant, patches its unit to vacant, and deletes its payments. -/
theorem deleteTenant_found_state (s s₂ : AppState) (tid : String)
    (t₀ : Tenant) (hfind : s.tenants.find? (fun x => x.id == tid) = some t₀)
    (h : deleteTenant s tid = .ok s₂) :
    s₂ = { s with
      tenants := s.tenants.filter (fun t' => !(t'.id == tid)),
      units := s.units.map (fun u =>
        if u.id == t₀.unitId then
          { u with isOccupied := false, tenantId := none }
        else u),
      payments := s.payments.filter (fun p => !(p.tenantId == tid)) } := by
  unfold deleteTenant at h
  rcases hcu : s.currentUserId with _ | uid
  · rw [hcu] at h
    cases h
  · simp only [hcu, hfind] at h
    exact (Except.ok.inj h).symm

/-- C9: a unit is occupied exactly when a live tenant references it, and
the tenant operations maintain this.  Creating a tenant (into a vacant
unit, as the tenant form offers only vacant units) marks the unit
occupied with the new tenant's id and preserves the invariant; deleting
a tenant marks its unit vacant, clears the back-reference, deletes all
of the tenant's payments, and preserves the invariant. -/
theorem c9_occupancy_invariant (s s₁ s₂ : AppState) (t : Tenant)
    (u : RentalUnit) (tid : String) (td : Tenant)
    (hI : OccupancyInv s)
    (hadd : addTenant s t = .ok s₁)
    (hu : u ∈ s.units) (huid : u.id = t.unitId) (hvac : u.isOccupied = false)
    (hfresh : ∀ t' ∈ s.tenants, t'.id ≠ t.id)
    (htd : td ∈ s.tenants) (htdid : td.id = tid)
    (hdel : deleteTenant s tid = .ok s₂) :
    ({ u with isOccupied := true, tenantId := some t.id } ∈ s₁.units ∧
      t ∈ s₁.tenants ∧ OccupancyInv s₁) ∧
    ((∀ p ∈ s₂.payments, p.tenantId ≠ tid) ∧
      (∀ u' ∈ s.units, u'.id = td.unitId →
        { u' with isOccupied := false, tenantId := none } ∈ s₂.units) ∧
      OccupancyInv s₂) := by
  obtain ⟨hIocc, hIuniq, hIkey⟩ := hI
  have heq₁ := addTenant_ok_state s s₁ t hadd
  have hfind0 : ∃ t₀, s.tenants.find? (fun x => x.id == tid) = some t₀ := by
    rcases hf : s.tenants.find? (fun x => x.id == tid) with _ | t₀
    · exact absurd (beq_of_eq htdid) (List.find?_eq_none.mp hf td htd)
    · exact ⟨t₀, hf⟩
  obtain ⟨t₀, hf⟩ := hfind0
  have ht₀pred := List.find?_some hf
  have ht₀id : t₀.id = tid := eq_of_beq ht₀pred
  have ht₀mem : t₀ ∈ s.tenants := List.mem_of_find?_eq_some hf
  have ht₀td : t₀ = td := hIkey t₀ ht₀mem td htd (by rw [ht₀id, htdid])
  subst ht₀td
  have heq₂ := deleteTenant_found_state s s₂ tid t₀ hf hdel
  constructor
  · refine ⟨?_, ?_, ?_⟩
    · rw [heq₁]
      exact List.mem_map.mpr ⟨u, hu, if_pos (beq_of_eq huid)⟩
    · rw [heq₁]
      exact List.mem_append_right _ (List.mem_singleton.mpr rfl)
    · rw [heq₁]
      have hnone : ∀ t' ∈ s.tenants, t'.unitId ≠ t.unitId := by
        intro t' ht' hcontra
        have hocc : u.isOccupied = true :=
          (hIocc u hu).mpr ⟨t', ht', by rw [hcontra]; exact huid.symm⟩
        rw [hvac] at hocc
        exact Bool.false_ne_true hocc
      refine ⟨?_, ?_, ?_⟩
      · intro u' hu'
        obtain ⟨y, hy, hyeq⟩ := List.mem_map.mp hu'
        by_cases hyid : (y.id == t.unitId) = true
        · rw [if_pos hyid] at hyeq
          subst hyeq
          constructor
          · intro _
            exact ⟨t, List.mem_append_right _ (List.mem_singleton.mpr rfl),
              (eq_of_beq hyid).symm⟩
          · intro _
            rfl
        · rw [if_neg hyid] at hyeq
          subst hyeq
          have hyne : y.id ≠ t.unitId := fun hc => hyid (beq_of_eq hc)
          constructor
          · intro hocc
            obtain ⟨t', ht', href⟩ := (hIocc y hy).mp hocc
            exact ⟨t', List.mem_append_left _ ht', href⟩
          · rintro ⟨t', ht', href⟩
            rcases List.mem_append.mp ht' with hold | hnew
            · exact (hIocc y hy).mpr ⟨t', hold, href⟩
            · rw [List.mem_singleton] at hnew
              subst hnew
              exact absurd href.symm hyne
      · intro t₁ ht₁ t₂ ht₂ hunit
        rcases List.mem_append.mp ht₁ with h₁ | h₁ <;>
          rcases List.mem_append.mp ht₂ with h₂ | h₂
        · exact hIuniq t₁ h₁ t₂ h₂ hunit
        · rw [List.mem_singleton] at h₂
          subst h₂
          exact absurd hunit (hnone t₁ h₁)
        · rw [List.mem_singleton] at h₁
          subst h₁
          exact absurd hunit.symm (hnone t₂ h₂)
        · rw [List.mem_singleton] at h₁ h₂
          subst h₁
          subst h₂
          rfl
      · intro t₁ ht₁ t₂ ht₂ hid
        rcases List.mem_append.mp ht₁ with h₁ | h₁ <;>
          rcases List.mem_append.mp ht₂ with h₂ | h₂
        · exact hIkey t₁ h₁ t₂ h₂ hid
        · rw [List.mem_singleton] at h₂
          subst h₂
          exact absurd hid (hfresh t₁ h₁)
        · rw [List.mem_singleton] at h₁
          subst h₁
          exact absurd hid.symm (hfresh t₂ h₂)
        · rw [List.mem_singleton] at h₁ h₂
          subst h₁
          subst h₂
          rfl
  · refine ⟨?_, ?_, ?_⟩
    · intro p hp
      rw [heq₂] at hp
      obtain ⟨hpm, hpred⟩ := List.mem_filter.mp hp
      simp only [Bool.not_eq_true'] at hpred
      exact beq_eq_false_iff_ne.mp hpred
    · intro u' hu' huid'
      rw [heq₂]
      exact List.mem_map.mpr ⟨u', hu', if_pos (beq_of_eq huid')⟩
    · rw [heq₂]
      refine ⟨?_, ?_, ?_⟩
      · intro x hx
        obtain ⟨y, hy, hyeq⟩ := List.mem_map.mp hx
        by_cases hyid : (y.id == t₀.unitId) = true
        · rw [if_pos hyid] at hyeq
          subst hyeq
          constructor
          · intro hocc
            exact absurd hocc Bool.false_ne_true
          · rintro ⟨t', ht', href⟩
            obtain ⟨ht'mem, ht'pred⟩ := List.mem_filter.mp ht'
            simp only [Bool.not_eq_true'] at ht'pred
            have ht'ne : t'.id ≠ tid := beq_eq_false_iff_ne.mp ht'pred
            have hrefu : t'.unitId = t₀.unitId := by
              rw [href]
              exact eq_of_beq hyid
            have hsame : t'.id = t₀.id := hIuniq t' ht'mem t₀ ht₀mem hrefu
            rw [ht₀id] at hsame
            exact absurd hsame ht'ne
        · rw [if_neg hyid] at hyeq
          subst hyeq
          have hyne : y.id ≠ t₀.unitId := fun hc => hyid (beq_of_eq hc)
          constructor
          · intro hocc
            obtain ⟨t', ht', href⟩ := (hIocc y hy).mp hocc
            refine ⟨t', List.mem_filter.mpr ⟨ht', ?_⟩, href⟩
            simp only [Bool.not_eq_true']
            rw [beq_eq_false_iff_ne]
            intro hc
            have ht't₀ : t' = t₀ :=
              hIkey t' ht' t₀ ht₀mem (by rw [hc, ht₀id])
            subst ht't₀
            exact hyne href.symm
          · rintro ⟨t', ht', href⟩
            obtain ⟨ht'mem, -⟩ := List.mem_filter.mp ht'
            exact (hIocc y hy).mpr ⟨t', ht'mem, href⟩
      · intro t₁ ht₁ t₂ ht₂ hunit
        exact hIuniq t₁ (List.mem_filter.mp ht₁).1 t₂
          (List.mem_filter.mp ht₂).1 hunit
      · intro t₁ ht₁ t₂ ht₂ hid
        exact hIkey t₁ (List.mem_filter.mp ht₁).1 t₂
          (List.mem_filter.mp ht₂).1 hid

/-- Witness for C9 on a concrete store: adding `t2` occupies `u2`;
deleting `t0` removes `t0`'s payments. -/
theorem c9_witness :
    ∃ s₁ s₂, addTenant exStateOcc exTenantNew = .ok s₁ ∧
      deleteTenant exStateOcc "t0" = .ok s₂ ∧
      ({ exUnitVacant with isOccupied := true, tenantId := some "t2" } ∈ s₁.units) ∧
      (∀ p ∈ s₂.payments, p.tenantId ≠ "t0") := by
  refine ⟨_, _, rfl, rfl, ?_, ?_⟩
  · exact (c9_occupancy_invariant exStateOcc _ _ exTenantNew exUnitVacant
      "t0" exTenant0 (by unfold OccupancyInv; decide) rfl (by decide) rfl rfl
      (by decide) (by decide) rfl rfl).1.1
  · exact (c9_occupancy_invariant exStateOcc _ _ exTenantNew exUnitVacant
      "t0" exTenant0 (by unfold OccupancyInv; decide) rfl (by decide) rfl rfl
      (by decide) (by decide) rfl rfl).2.1
